import Mathlib

/-!
Verification of the task-scheduler core of beached/function_queue against its
natural-language specification.  The definitions below are a shallow embedding of
the C++ sources: the bounded locking circular buffers (both the fixed-capacity
template variant and the legacy heap variant), the task type with its optional
completion latch, the worker loop helpers of task_scheduler_impl, the free
helpers schedule_task / create_task_group, and the process-wide scheduler
accessor.  Machine sizes are modelled as Nat with explicit modulo where the code
wraps, callables as abstract identifiers or state transformers, and blocking
waits as explicit outcome constructors or wakeup sequences fed as inputs.
-/

/-- Modelled from the spec: daw::shared_latch lives in daw/parallel/daw_latch.h,
which is not part of this repository's sources.  Spec section 4.2: a latch is
constructed with a count, notify decrements under the mutex (a no-op at zero,
never underflowing), and try_wait reports whether the count is already zero. -/
structure Latch where
  count : Nat
deriving DecidableEq

/-- Modelled from the spec: notify decrements the counter; at zero it is a no-op. -/
def Latch.notify (l : Latch) : Latch :=
  Latch.mk (l.count - 1)

/-- Modelled from the spec: try_wait returns whether the count is already zero. -/
def Latch.tryWait (l : Latch) : Bool :=
  l.count == 0

/-- daw::task_t, src/unnamed/part_001 lines 367-413: a nullary callable bundled
with an optional shared latch.  The callable is abstracted by an identifier. -/
structure task_t where
  fnId : Nat
  m_latch : Option Latch
deriving DecidableEq

/-- task_t::is_ready, src/unnamed/part_001 lines 403-408: if the task holds a
latch, return the latch's try_wait; otherwise the task is ready. -/
def task_t.is_ready (t : task_t) : Bool :=
  match t.m_latch with
  | some l => l.tryWait
  | none => true

/-- The observable effect of task_scheduler_impl::run_task on one popped task. -/
inductive RunAction where
  | nothing
  | executed (fnId : Nat)
  | resubmitted (fnId : Nat) (l : Latch)
deriving DecidableEq

/-- task_scheduler_impl::run_task, src/unnamed/part_000 lines 81-98: a null task
pointer does nothing; a task that is not ready is re-submitted through add_task
together with its latch; otherwise the callable is invoked (exceptions are
swallowed).  The not-ready/no-latch branch cannot occur, since is_ready is true
whenever there is no latch; the code would dereference a released semaphore
there, so the model maps it to execution like the ready case. -/
def runTask : Option task_t → RunAction
  | none => RunAction.nothing
  | some t =>
    if t.is_ready then RunAction.executed t.fnId
    else
      match t.m_latch with
      | some l => RunAction.resubmitted t.fnId l
      | none => RunAction.executed t.fnId

/-- create_task_group, src/unnamed/part_001 lines 735-755: sem is constructed
with count sizeof...(tasks); each task is passed to schedule_task(sem, task, ts)
and, when scheduling is rejected, sem.notify() runs immediately.  The input list
holds, for each callable in order, whether the scheduler accepted it; the result
is the latch state when create_task_group returns. -/
def createTaskGroupLatch (accepted : List Bool) : Latch :=
  accepted.foldl (fun l acc => if acc then l else l.notify) (Latch.mk accepted.length)

/-- schedule_task, src/unnamed/part_001 lines 697-712: the user callable is
wrapped so that a scope guard notifies the group latch exactly once when the
callable finishes, also when it throws. -/
def runScheduledTask (l : Latch) (_userThrew : Bool) : Latch :=
  l.notify

/-- The latch state after every accepted callable of the group has run to
completion (threw records, per accepted callable, whether it threw; the scope
guard notifies either way). -/
def taskGroupFinal (accepted : List Bool) (threw : List Bool) : Latch :=
  threw.foldl runScheduledTask (createTaskGroupLatch accepted)

/-- The members of daw::parallel::locking_circular_buffer
(src/unnamed/part_001: m_values, m_front, m_back, m_is_full).  The fixed-capacity
template variant (lines 59-186) stores unique_ptr slots of a std::array of size
Sz; the legacy variant (lines 224-334) stores optional slots of a heap array of
m_size entries.  Both are modelled as a list of optional tasks whose length is
the capacity, with front and back indices and the full flag. -/
structure BufferState where
  values : List (Option task_t)
  front : Nat
  back : Nat
  isFull : Bool
deriving DecidableEq

/-- empty(), src/unnamed/part_001 lines 80-83 and 252-254:
not full and front == back. -/
def BufferState.empty (b : BufferState) : Bool :=
  !b.isFull && (b.front == b.back)

/-- The value read out of the front slot (both variants move/exchange the slot
contents out, leaving it cleared). -/
def BufferState.frontSlot (b : BufferState) : Option task_t :=
  b.values.getD b.front none

/-- The buffer after a successful pop: the front slot is cleared, front advances
modulo the capacity, and the full flag is cleared (src/unnamed/part_001 lines
97-101, 109-115, 135-141, 269-274, 287-295). -/
def BufferState.poppedFront (b : BufferState) : BufferState :=
  { values := b.values.set b.front none,
    front := (b.front + 1) % b.values.length,
    back := b.back,
    isFull := false }

/-- The buffer after a successful push: the value is stored at back, back
advances modulo the capacity, and the full flag is set exactly when front equals
the new back (src/unnamed/part_001 lines 162-169, 177-184, 309-316, 325-332). -/
def BufferState.pushedBack (b : BufferState) (t : task_t) : BufferState :=
  { values := b.values.set b.back (some t),
    front := b.front,
    back := (b.back + 1) % b.values.length,
    isFull := b.front == (b.back + 1) % b.values.length }

/-- The two condition variables of a buffer: m_not_empty and m_not_full. -/
inductive CondVar where
  | notEmpty
  | notFull
deriving DecidableEq

/-- daw::parallel::push_back_result, src/unnamed/part_001 line 57. -/
inductive push_back_result where
  | failed
  | success
deriving DecidableEq

/-- One wakeup of a timed condition-variable wait inside wait_impl::wait_for:
pred is the value the domain predicate has when this wt.wait_for call returns,
cond the value can_continue() yields right after it. -/
structure Wakeup where
  pred : Bool
  cond : Bool
deriving DecidableEq

/-- wait_impl::wait_for, src/unnamed/part_001 lines 44-55: status is the
predicate value of the first wait; while cond() holds and status is false the
wait repeats; the call returns status && cond().  The input lists the successive
wakeups; none models a run that never leaves the loop within the given wakeups. -/
def waitFor : List Wakeup → Option Bool
  | [] => none
  | w :: ws => if w.cond && !w.pred then waitFor ws else some (w.pred && w.cond)

/-- The wakeup at which wait_impl::wait_for stops looping: the first wakeup
whose cond is false or whose pred is true. -/
def finalWakeup : List Wakeup → Option Wakeup
  | [] => none
  | w :: ws => if w.cond && !w.pred then finalWakeup ws else some w

/-- pop_front with predicate, src/unnamed/part_001 lines 118-142: if the buffer
is empty, run wait_impl::wait_for on not_empty and abandon (returning nothing,
writing nothing) when it fails; then abandon if can_continue() is false; else
pop.  stWait is the buffer contents when the wait ends (the lock is released
while waiting, so other threads may have pushed); condAfter is the
can_continue() evaluation after the wait.  The second component is the buffer
state this call wrote, none when it wrote nothing. -/
def popFrontPred (st : BufferState) (ws : List Wakeup) (stWait : BufferState)
    (condAfter : Bool) : Option task_t × Option BufferState :=
  if st.empty then
    if waitFor ws = some true then
      if condAfter then (stWait.frontSlot, some stWait.poppedFront)
      else (none, none)
    else (none, none)
  else
    if condAfter then (st.frontSlot, some st.poppedFront)
    else (none, none)

/-- push_back with predicate, src/unnamed/part_001 lines 144-170: when the
buffer is full the code first blocks in an untimed m_not_full.wait (the first
component records that); it then runs wait_impl::wait_for with domain predicate
not-full and the caller predicate; on failure it returns false having written
nothing, otherwise it stores the value at back and advances back.  stWait is the
buffer contents when the waits end; the last component is the buffer state this
call wrote, none when it wrote nothing. -/
def pushBackPred (st : BufferState) (t : task_t) (ws : List Wakeup)
    (stWait : BufferState) : Bool × Bool × Option BufferState :=
  (st.isFull,
   if waitFor ws = some true then (true, some (stWait.pushedBack t))
   else (false, none))

/-- Result of one call to a non-blocking push. -/
structure PushRun where
  result : push_back_result
  state : BufferState
  signals : List CondVar
deriving DecidableEq

/-- try_push_back of the fixed-capacity variant, src/unnamed/part_001 lines
172-185: try-lock; if the lock is unavailable or the buffer full, return failed
with nothing changed and nothing signalled; otherwise store at back, advance
back modulo Sz, set the full flag exactly when front equals the new back, and
signal not_empty.  lockAvail is whether the try-lock obtained the mutex. -/
def tryPushBack (lockAvail : Bool) (st : BufferState) (t : task_t) : PushRun :=
  if !lockAvail || st.isFull then
    { result := push_back_result.failed, state := st, signals := [] }
  else
    { result := push_back_result.success, state := st.pushedBack t,
      signals := [CondVar.notEmpty] }

/-- Result of one call to the legacy try_push_back, which can block. -/
structure LegacyPushRun where
  blockedOnNotFull : Bool
  result : push_back_result
  state : BufferState
  signals : List CondVar
deriving DecidableEq

/-- try_push_back of the legacy variant, src/unnamed/part_001 lines 318-333:
after the try-lock, when the lock is unavailable or the buffer is full the code
calls m_not_full.wait(lck, not-full) - a blocking wait with no timeout - and
stWait is the buffer contents when that wait returns; it then stores the value
and returns success unconditionally.  It never returns failed. -/
def legacyTryPushBack (lockAvail : Bool) (st : BufferState) (t : task_t)
    (stWait : BufferState) : LegacyPushRun :=
  if !lockAvail || st.isFull then
    { blockedOnNotFull := true, result := push_back_result.success,
      state := stWait.pushedBack t, signals := [CondVar.notEmpty] }
  else
    { blockedOnNotFull := false, result := push_back_result.success,
      state := st.pushedBack t, signals := [CondVar.notEmpty] }

/-- Result of one call to a non-blocking pop. -/
structure PopRun where
  task : Option task_t
  state : BufferState
  signals : List CondVar
deriving DecidableEq

/-- try_pop_front of the fixed-capacity variant, src/unnamed/part_001 lines
92-102: try-lock; if the lock is unavailable or the buffer empty, return nothing
with the buffer unchanged; otherwise clear the full flag, move the task out of
the front slot and advance front modulo Sz.  No condition variable is signalled
on either path. -/
def tryPopFront (lockAvail : Bool) (st : BufferState) : PopRun :=
  if !lockAvail || st.empty then
    { task := none, state := st, signals := [] }
  else
    { task := st.frontSlot, state := st.poppedFront, signals := [] }

/-- try_pop_front of the legacy variant, src/unnamed/part_001 lines 264-275:
try-lock; on an unavailable lock or an empty buffer return nothing; otherwise
clear the full flag, exchange the front slot with an empty optional and advance
front modulo m_size.  It likewise signals no condition variable. -/
def legacyTryPopFront (lockAvail : Bool) (st : BufferState) : PopRun :=
  if !lockAvail || st.empty then
    { task := none, state := st, signals := [] }
  else
    { task := st.frontSlot,
      state := { values := st.values.set st.front none,
                 front := (st.front + 1) % st.values.length,
                 back := st.back,
                 isFull := false },
      signals := [] }

/-- What wait_for_task_from_pool yields: a task found by a non-blocking pop of
queue m, or the fallback that repeatedly retries the worker's own queue
(sleeping 1ns between misses) until a task arrives there. -/
inductive PoolFetch where
  | found (m : Nat) (t : task_t)
  | blockedOnOwn (id : Nat)
deriving DecidableEq

/-- The steal loop of task_scheduler_impl::wait_for_task_from_pool,
src/unnamed/part_000 lines 67-73: for m starting at (id+1) mod N and stepping
(m+1) mod N while m differs from id, try queue m and return the first hit.
queues m is the task a non-blocking receive on queue m returns during this
sweep, none on a miss.  fuel bounds the iterations so the recursion is
structural; every use supplies enough fuel to reach id. -/
def stealFrom (queues : Nat → Option task_t) (id n : Nat) :
    Nat → Nat → Option (Nat × task_t)
  | _, 0 => none
  | m, fuel + 1 =>
    if m = id then none
    else
      match queues m with
      | some t => some (m, t)
      | none => stealFrom queues id n ((m + 1) % n) fuel

/-- task_scheduler_impl::wait_for_task_from_pool, src/unnamed/part_000 lines
59-79: first a non-blocking receive on the worker's own queue id; on a miss the
steal loop over the other queues; when every queue misses, spin on the own
queue until a task arrives (modelled by blockedOnOwn). -/
def waitForTaskFromPool (queues : Nat → Option task_t) (id n : Nat) : PoolFetch :=
  match queues id with
  | some t => PoolFetch.found id t
  | none =>
    match stealFrom queues id n ((id + 1) % n) n with
    | some mt => PoolFetch.found mt.1 mt.2
    | none => PoolFetch.blockedOnOwn id

/-- The probe order the specification states for a worker id among n queues:
(id+1) mod n, (id+2) mod n, ..., (id+n-1) mod n. -/
def probeSeq (id n : Nat) : List Nat :=
  (List.range (n - 1)).map (fun k => (id + 1 + k) % n)

/-- The first queue of the given probe list whose non-blocking pop yields a
task, with that task. -/
def firstHit (queues : Nat → Option task_t) : List Nat → Option (Nat × task_t)
  | [] => none
  | m :: ms =>
    match queues m with
    | some t => some (m, t)
    | none => firstHit queues ms

/-- A queue element as seen by stop: a user task or the empty sentinel lambda
stop enqueues to unwedge a blocked worker. -/
inductive QTask where
  | user (id : Nat)
  | sentinel
deriving DecidableEq

/-- A worker thread entry of m_threads; joinable mirrors th.joinable(). -/
structure WorkerThread where
  joinable : Bool
deriving DecidableEq

/-- The scheduler members the lifecycle claims touch, from task_scheduler_impl
(src/unnamed/part_000, src/unnamed/part_003 lines 49-89): the m_continue flag,
the per-worker queues m_tasks and the worker list m_threads. -/
structure SchedulerState where
  continueFlag : Bool
  queues : List (List QTask)
  threads : List WorkerThread
deriving DecidableEq

/-- One iteration of the sentinel loop of stop: add_task([](){}, n) pushes one
wrapped empty task onto queue n (send_task retries until the push succeeds,
src/unnamed/part_000 lines 251-256, so the push always lands). -/
def addSentinel (qs : List (List QTask)) (n : Nat) : List (List QTask) :=
  qs.set n (qs.getD n [] ++ [QTask.sentinel])

/-- The sentinel loop of stop, src/unnamed/part_000 lines 174-176: for n from 0
below k, enqueue one empty task into queue n (index k-1 is applied last). -/
def enqueueLoop (qs : List (List QTask)) : Nat → List (List QTask)
  | 0 => qs
  | k + 1 => addSentinel (enqueueLoop qs k) k

/-- What stop does to one worker thread, src/unnamed/part_000 lines 178-188:
joinable threads are joined when block is true and detached otherwise;
non-joinable threads are left alone. -/
inductive ThreadFate where
  | joined
  | detached
  | skipped
deriving DecidableEq

/-- task_scheduler_impl::stop, src/unnamed/part_000 lines 171-191: clear
m_continue, enqueue one empty sentinel per queue, then join or detach every
joinable worker according to block, and clear the thread list. -/
def stopScheduler (block_ : Bool) (st : SchedulerState) : SchedulerState × List ThreadFate :=
  let qs := enqueueLoop st.queues st.queues.length
  let fates := st.threads.map (fun th =>
    if th.joinable then (if block_ then ThreadFate.joined else ThreadFate.detached)
    else ThreadFate.skipped)
  ({ continueFlag := false, queues := qs, threads := [] }, fates)

/-- task_scheduler_impl::start, src/unnamed/part_000 lines 151-169: set
m_continue and spawn one worker per queue, appending each to m_threads. -/
def startScheduler (st : SchedulerState) : SchedulerState :=
  { st with continueFlag := true,
            threads := st.threads ++ st.queues.map (fun _ => WorkerThread.mk true) }

/-- task_scheduler_impl::started, src/unnamed/part_000 lines 55-57: the
m_continue flag. -/
def startedScheduler (st : SchedulerState) : Bool :=
  st.continueFlag

/-- A freshly constructed task_scheduler (src/unnamed/part_000 lines 45-49,
259-262): not started, hw empty queues (one per hardware thread), no workers. -/
def newScheduler (hw : Nat) : SchedulerState :=
  { continueFlag := false, queues := List.replicate hw [], threads := [] }

/-- daw::get_task_scheduler, src/unnamed/part_000 lines 280-290: a static
singleton initialized on first access by constructing a scheduler and starting
it; every call then checks operator bool (started) and starts the singleton
again when it is not started, returning it.  global is the static's contents
before the call (none before first access); the result pairs the returned
scheduler with the static's contents after the call. -/
def getTaskScheduler (hw : Nat) (global : Option SchedulerState) :
    SchedulerState × Option SchedulerState :=
  let ts := match global with
            | none => startScheduler (newScheduler hw)
            | some s => s
  let ts2 := if startedScheduler ts then ts else startScheduler ts
  (ts2, some ts2)

/-- The drain-after-run loop of the closures task_scheduler::add_task builds,
src/unnamed/part_001 lines 547 and 561: while m_continue holds and
run_next_task(id) found work, loop.  Each input pair gives (m_continue,
run_next_task id) for one iteration; the conjunction short-circuits, and the
result counts the iterations that ran a task. -/
def drainAfterRun : List (Bool × Bool) → Nat
  | [] => 0
  | (c, r) :: rest => if c && r then drainAfterRun rest + 1 else 0

/-- The closure task_scheduler::add_task wraps a submitted task in,
src/unnamed/part_001 lines 540-551 and 553-566: it captures only a weak handle
(get_handle, lines 499-522) to the scheduler's member data; when it runs, it
locks the handle, and only on success invokes the user callable and then drives
the drain-after-run loop.  alive is whether wself.lock() succeeded, user the
callable as a transformer of an abstract world, iters the drain iterations; the
result is the world afterwards and the number of drain iterations that ran. -/
def addTaskClosure {World : Type} (alive : Bool) (user : World → World)
    (w : World) (iters : List (Bool × Bool)) : World × Nat :=
  if alive then (user w, drainAfterRun iters) else (w, 0)

/-- Stage a of the pipeline test, src/unnamed/part_004 lines 31-33. -/
def a (x : Int) : Int := x * 2

/-- Stage b of the pipeline test, src/unnamed/part_004 lines 35-37. -/
def b (x : Int) : Int := x * 3

/-- Stage c of the pipeline test, src/unnamed/part_004 lines 39-41. -/
def c (x : Int) : Int := x * 4

/-- Modelled from the spec: function_stream.h (compose_future and the pipe
operator) is not among this repository's sources, only its test
src/unnamed/part_004 is.  Spec section 4.6: invocation with argument x builds
F0 := resolved_future(x) and Fi := Fi-1.next(fi) for i = 1..k, so the returned
future carries fk(...(f1(x))); in the pure model the future's value is the left
fold of the stages over x. -/
def pipelineRun (stages : List (Int → Int)) (x : Int) : Int :=
  stages.foldl (fun acc f => f acc) x

/-- A concrete latch-free task used by witnesses and counterexamples. -/
def tkS : task_t := task_t.mk 0 none

/-- A concrete capacity-1 full buffer. -/
def fullBuf1 : BufferState := BufferState.mk [some tkS] 0 0 true

/-- A concrete capacity-1 empty buffer. -/
def emptyBuf1 : BufferState := BufferState.mk [none] 0 0 false

/-- A concrete pool snapshot: only queue 0 has a task. -/
def exQueues : Nat → Option task_t :=
  fun m => if m = 0 then some (task_t.mk 7 none) else none

/-- Folding the submission loop body over any acceptance list subtracts one from
the counter per rejected submission. -/
theorem createTaskGroup_foldl (acc : List Bool) : ∀ cnt : Nat,
    acc.foldl (fun l x => if x then l else l.notify) (Latch.mk cnt) =
      Latch.mk (cnt - acc.count false) := by
  induction acc with
  | nil => intro cnt; simp
  | cons x xs ih =>
    intro cnt
    cases x with
    | false =>
      have e1 : (false :: xs).foldl (fun l x => if x then l else l.notify)
          (Latch.mk cnt) =
          xs.foldl (fun l x => if x then l else l.notify) (Latch.mk (cnt - 1)) := rfl
      rw [e1, ih (cnt - 1), List.count_cons_self]
      simp only [Latch.mk.injEq]
      omega
    | true =>
      have e1 : (true :: xs).foldl (fun l x => if x then l else l.notify)
          (Latch.mk cnt) =
          xs.foldl (fun l x => if x then l else l.notify) (Latch.mk cnt) := rfl
      rw [e1, ih cnt, List.count_cons_of_ne (by decide)]

/-- Folding the scope-guard notifications over any run list subtracts the number
of completed scheduled tasks from the counter. -/
theorem runScheduled_foldl (threw : List Bool) : ∀ cnt : Nat,
    threw.foldl runScheduledTask (Latch.mk cnt) = Latch.mk (cnt - threw.length) := by
  induction threw with
  | nil => intro cnt; simp
  | cons x xs ih =>
    intro cnt
    simp [List.foldl_cons, runScheduledTask, Latch.notify, ih, Nat.sub_sub,
      Nat.add_comm]

/-- In a list of Booleans the number of true and false entries sums to the
length. -/
theorem count_true_add_count_false (acc : List Bool) :
    acc.count true + acc.count false = acc.length := by
  induction acc with
  | nil => simp
  | cons x xs ih => cases x <;> simp [List.count_cons, ih] <;> omega

/-- C1: create_task_group builds one latch whose initial count is the number of
callables; after the submission loop the count is the length minus the rejected
submissions (each rejection notified the latch immediately), and once every
accepted callable has completed - each notifying the shared latch exactly once
through the schedule_task scope guard - the latch count reaches zero. -/
theorem create_task_group_latch_zero (accepted threw : List Bool)
    (hrun : threw.length = accepted.count true) :
    (Latch.mk accepted.length).count = accepted.length ∧
    (createTaskGroupLatch accepted).count =
      accepted.length - accepted.count false ∧
    (taskGroupFinal accepted threw).count = 0 := by
  have h1 := createTaskGroup_foldl accepted accepted.length
  have h2 := runScheduled_foldl threw (accepted.length - accepted.count false)
  have h3 := count_true_add_count_false accepted
  refine ⟨rfl, ?_, ?_⟩
  · rw [createTaskGroupLatch, h1]
  · rw [taskGroupFinal, createTaskGroupLatch, h1, h2, hrun]
    show accepted.length - accepted.count false - accepted.count true = 0
    omega

/-- Witness for C1 at a concrete group: three callables, the second rejected,
both accepted ones completed. -/
theorem create_task_group_latch_zero_witness :
    (taskGroupFinal [true, false, true] [false, true]).count = 0 :=
  (create_task_group_latch_zero [true, false, true] [false, true] (by decide)).2.2

/-- C2: run_task on a null task does nothing; it invokes the callable exactly
when the task is ready, readiness being the absence of a companion latch or a
latch whose count is already zero; a not-ready task is re-submitted to the
scheduler with its latch instead of being executed. -/
theorem run_task_ready_dispatch (t : task_t) :
    runTask none = RunAction.nothing ∧
    (runTask (some t) = RunAction.executed t.fnId ↔ t.is_ready = true) ∧
    (t.is_ready = false → ∃ l, t.m_latch = some l ∧ l.count ≠ 0 ∧
        runTask (some t) = RunAction.resubmitted t.fnId l) ∧
    (t.is_ready = true ↔ (t.m_latch = none ∨ ∃ l, t.m_latch = some l ∧ l.count = 0)) := by
  refine ⟨rfl, ?_, ?_, ?_⟩
  · cases hl : t.m_latch with
    | none => simp [runTask, task_t.is_ready, hl]
    | some l =>
      by_cases hz : l.count = 0 <;>
        simp [runTask, task_t.is_ready, Latch.tryWait, hl, hz]
  · intro hnr
    cases hl : t.m_latch with
    | none => simp [task_t.is_ready, hl] at hnr
    | some l =>
      refine ⟨l, rfl, ?_, ?_⟩
      · intro hz
        simp [task_t.is_ready, Latch.tryWait, hl, hz] at hnr
      · simp [runTask, hnr, hl]
  · cases hl : t.m_latch with
    | none => simp [task_t.is_ready, hl]
    | some l =>
      by_cases hz : l.count = 0 <;>
        simp [task_t.is_ready, Latch.tryWait, hl, hz]

/-- Witness for C2 at a concrete ready task: a task whose latch already reached
zero is executed, not re-submitted. -/
theorem run_task_ready_dispatch_witness :
    runTask (some (task_t.mk 3 (some (Latch.mk 0)))) = RunAction.executed 3 :=
  (run_task_ready_dispatch (task_t.mk 3 (some (Latch.mk 0)))).2.1.mpr (by decide)

/-- C4: wait_impl::wait_for returns success exactly when, at the wakeup where
the loop stops, the domain predicate holds and the caller's keep_going predicate
holds; whenever it reports abandonment, the predicate pop_front returns no task
and writes nothing, and the predicate push_back returns false and writes
nothing. -/
theorem wait_for_success_iff :
    (∀ ws : List Wakeup,
        waitFor ws = (finalWakeup ws).map (fun w => w.pred && w.cond)) ∧
    (∀ (st : BufferState) (ws : List Wakeup) (stWait : BufferState)
        (condAfter : Bool), st.empty = true → waitFor ws ≠ some true →
        popFrontPred st ws stWait condAfter = (none, none)) ∧
    (∀ (st : BufferState) (t : task_t) (ws : List Wakeup)
        (stWait : BufferState), waitFor ws ≠ some true →
        (pushBackPred st t ws stWait).2 = (false, none)) := by
  refine ⟨?_, ?_, ?_⟩
  · intro ws
    induction ws with
    | nil => rfl
    | cons w ws ih =>
      by_cases h : (w.cond && !w.pred) = true <;>
        simp [waitFor, finalWakeup, h, ih]
  · intro st ws stWait condAfter hempty hfail
    simp [popFrontPred, hempty, hfail]
  · intro st t ws stWait hfail
    simp [pushBackPred, hfail]

/-- Witness for C4 at a concrete run: a single wakeup with a false keep_going
predicate abandons the wait, and the predicate pop on an empty one-slot buffer
returns no task and writes nothing. -/
theorem wait_for_success_iff_witness :
    popFrontPred emptyBuf1 [Wakeup.mk false false] emptyBuf1 true = (none, none) :=
  wait_for_success_iff.2.1 emptyBuf1 [Wakeup.mk false false] emptyBuf1 true
    (by decide) (by decide)

/-- C5 counterexample: on a full queue (with the lock available) the legacy
try_push_back does not return the failed result leaving the queue unchanged -
it blocks on the not_full condition variable and then stores the value and
returns success. -/
theorem try_push_back_counterexample :
    (legacyTryPushBack true fullBuf1 (task_t.mk 1 none) emptyBuf1).blockedOnNotFull
      = true ∧
    (legacyTryPushBack true fullBuf1 (task_t.mk 1 none) emptyBuf1).result =
      push_back_result.success ∧
    (legacyTryPushBack true fullBuf1 (task_t.mk 1 none) emptyBuf1).state ≠
      fullBuf1 := by
  decide

/-- C5 (amended): the fixed-capacity variant of try_push never blocks: it
try-locks, returns failed with the queue unchanged and nothing signalled when
the lock is unavailable or the queue full, and otherwise stores the task at the
tail slot, advances the tail modulo the capacity, keeps the head, sets the full
flag exactly when head equals the new tail, and signals not_empty; the legacy
variant instead, when the queue is full, blocks waiting for not_full and then
stores and returns success. -/
theorem try_push_back_spec (lockAvail : Bool) (st : BufferState) (t : task_t) :
    ((tryPushBack lockAvail st t).result = push_back_result.failed ↔
        (lockAvail = false ∨ st.isFull = true)) ∧
    (lockAvail = false ∨ st.isFull = true →
        tryPushBack lockAvail st t =
          { result := push_back_result.failed, state := st, signals := [] }) ∧
    (lockAvail = true → st.isFull = false →
        (tryPushBack lockAvail st t).state.values =
          st.values.set st.back (some t) ∧
        (tryPushBack lockAvail st t).state.back =
          (st.back + 1) % st.values.length ∧
        (tryPushBack lockAvail st t).state.front = st.front ∧
        ((tryPushBack lockAvail st t).state.isFull = true ↔
          st.front = (st.back + 1) % st.values.length) ∧
        (tryPushBack lockAvail st t).signals = [CondVar.notEmpty]) ∧
    (∀ (st2 : BufferState) (t2 : task_t) (stWait : BufferState),
        st2.isFull = true →
        legacyTryPushBack true st2 t2 stWait =
          { blockedOnNotFull := true, result := push_back_result.success,
            state := stWait.pushedBack t2, signals := [CondVar.notEmpty] }) := by
  refine ⟨?_, ?_, ?_, ?_⟩
  · cases lockAvail <;> cases hf : st.isFull <;>
      simp [tryPushBack, hf]
  · intro h
    rcases h with h | h <;> simp [tryPushBack, h]
  · intro hl hf
    simp [tryPushBack, hl, hf, BufferState.pushedBack, beq_iff_eq]
  · intro st2 t2 stWait hf
    simp [legacyTryPushBack, hf]

/-- Witness for C5 at a concrete push into an empty one-slot buffer: the push
succeeds and signals not_empty. -/
theorem try_push_back_spec_witness :
    (tryPushBack true emptyBuf1 tkS).signals = [CondVar.notEmpty] :=
  ((try_push_back_spec true emptyBuf1 tkS).2.2.1 rfl rfl).2.2.2.2

/-- C6 counterexample: a successful try_pop (full one-slot queue, lock
available) removes and returns the head task but signals nothing - in
particular it does not signal the not_full condition variable. -/
theorem try_pop_front_counterexample :
    (tryPopFront true fullBuf1).task = some tkS ∧
    (tryPopFront true fullBuf1).signals = [] ∧
    (tryPopFront true fullBuf1).signals ≠ [CondVar.notFull] := by
  decide

/-- C6 (amended): try_pop never blocks: it try-locks, returns none with the
queue unchanged when the lock is unavailable or the queue empty, and otherwise
removes and returns the task at the head slot, clears that slot, advances the
head modulo the capacity, keeps the tail, clears the full flag - and signals no
condition variable (not_full is signalled only by the blocking pops); the
legacy variant behaves identically. -/
theorem try_pop_front_spec (lockAvail : Bool) (st : BufferState) :
    ((lockAvail = false ∨ st.empty = true) →
        tryPopFront lockAvail st =
          { task := none, state := st, signals := [] }) ∧
    (lockAvail = true → st.empty = false →
        (tryPopFront lockAvail st).task = st.values.getD st.front none ∧
        (tryPopFront lockAvail st).state.values = st.values.set st.front none ∧
        (tryPopFront lockAvail st).state.front =
          (st.front + 1) % st.values.length ∧
        (tryPopFront lockAvail st).state.back = st.back ∧
        (tryPopFront lockAvail st).state.isFull = false ∧
        (tryPopFront lockAvail st).signals = []) ∧
    legacyTryPopFront lockAvail st = tryPopFront lockAvail st := by
  refine ⟨?_, ?_, ?_⟩
  · intro h
    rcases h with h | h <;> simp [tryPopFront, h]
  · intro hl he
    simp [tryPopFront, hl, he, BufferState.poppedFront, BufferState.frontSlot]
  · cases hl : lockAvail <;> by_cases he : st.empty = true <;>
      simp [tryPopFront, legacyTryPopFront, he, BufferState.poppedFront]

/-- Witness for C6 at a concrete pop from a full one-slot buffer: the head task
is returned and nothing is signalled. -/
theorem try_pop_front_spec_witness :
    (tryPopFront true fullBuf1).task = fullBuf1.values.getD fullBuf1.front none ∧
    (tryPopFront true fullBuf1).signals = [] := by
  have h := (try_pop_front_spec true fullBuf1).2.1 rfl rfl
  exact ⟨h.1, h.2.2.2.2.2⟩

/-- Adding k with 1 ≤ k < n to an index below n moves it, modulo n. -/
theorem add_mod_ne_self (id k n : Nat) (hid : id < n) (hk1 : 1 ≤ k)
    (hkn : k < n) : (id + k) % n ≠ id := by
  intro h
  rcases Nat.lt_or_ge (id + k) n with hlt | hge
  · rw [Nat.mod_eq_of_lt hlt] at h
    omega
  · have h3 : id + k - n < n := by omega
    rw [Nat.mod_eq_sub_mod hge, Nat.mod_eq_of_lt h3] at h
    omega

/-- The steal loop entered at (id + (n - d)) mod n with d + 1 fuel visits
exactly the d probe targets (id + (n - d)) mod n, ..., (id + n - 1) mod n in
order and returns the first hit among them. -/
theorem stealFrom_eq_firstHit (queues : Nat → Option task_t) (id n : Nat)
    (hid : id < n) : ∀ d : Nat, d < n →
    stealFrom queues id n ((id + (n - d)) % n) (d + 1) =
      firstHit queues ((List.range d).map (fun j => (id + (n - d) + j) % n)) := by
  intro d
  induction d with
  | zero =>
    intro _
    have e1 : (id + (n - 0)) % n = id := by
      rw [Nat.sub_zero, Nat.add_mod_right, Nat.mod_eq_of_lt hid]
    rw [e1]
    simp [stealFrom, firstHit]
  | succ d ih =>
    intro hd
    have hk1 : 1 ≤ n - (d + 1) := by omega
    have hkn : n - (d + 1) < n := by omega
    have hne : (id + (n - (d + 1))) % n ≠ id :=
      add_mod_ne_self id (n - (d + 1)) n hid hk1 hkn
    rw [List.range_succ_eq_map, List.map_cons, List.map_map]
    show stealFrom queues id n ((id + (n - (d + 1))) % n) (d + 1 + 1) = _
    rw [stealFrom, if_neg hne]
    cases hq : queues ((id + (n - (d + 1))) % n) with
    | some t =>
      simp [firstHit, hq, Nat.add_zero]
    | none =>
      have e2 : ((id + (n - (d + 1))) % n + 1) % n = (id + (n - d)) % n := by
        rw [Nat.mod_add_mod]
        congr 1
        omega
      have e3 : ((fun j => (id + (n - (d + 1)) + j) % n) ∘ Nat.succ) =
          (fun j => (id + (n - d) + j) % n) := by
        funext j
        show (id + (n - (d + 1)) + (j + 1)) % n = (id + (n - d) + j) % n
        congr 1
        omega
      rw [e2, ih (by omega), e3]
      simp [firstHit, hq, Nat.add_zero]

/-- C3: wait_for_task_from_pool probes the worker's own queue first, then the
other queues in the order (id+1) mod N, (id+2) mod N, ..., (id+N-1) mod N,
returning the first task obtained, and only when all N queues miss does it fall
back to waiting on the worker's own queue until a task arrives. -/
theorem wait_for_task_probe_order (queues : Nat → Option task_t) (id n : Nat)
    (hid : id < n) :
    waitForTaskFromPool queues id n =
      match firstHit queues (id :: probeSeq id n) with
      | some mt => PoolFetch.found mt.1 mt.2
      | none => PoolFetch.blockedOnOwn id := by
  have key : stealFrom queues id n ((id + 1) % n) n =
      firstHit queues (probeSeq id n) := by
    have h := stealFrom_eq_firstHit queues id n hid (n - 1) (by omega)
    have e1 : n - (n - 1) = 1 := by omega
    have e2 : n - 1 + 1 = n := by omega
    rw [e1, e2] at h
    rw [h]
    rfl
  cases hq : queues id with
  | some t => simp [waitForTaskFromPool, firstHit, hq]
  | none =>
    simp only [waitForTaskFromPool, firstHit, hq, key]

/-- Witness for C3 at a concrete pool of three queues: worker 1 misses its own
queue and queue 2, then steals the task waiting in queue 0, the last probe of
the stated order 1, 2, 0. -/
theorem wait_for_task_probe_order_witness :
    waitForTaskFromPool exQueues 1 3 = PoolFetch.found 0 (task_t.mk 7 none) := by
  have h := wait_for_task_probe_order exQueues 1 3 (by decide)
  rw [h]
  decide

/-- Setting the slot right after a prefix of length k sets the head of the
suffix. -/
theorem set_append_len {α : Type} (k : Nat) :
    ∀ (A B : List α) (v : α), A.length = k →
      (A ++ B).set k v = A ++ B.set 0 v := by
  induction k with
  | zero =>
    intro A B v hA
    have hnil : A = [] := List.eq_nil_of_length_eq_zero hA
    subst hnil
    rfl
  | succ k ih =>
    intro A B v hA
    cases A with
    | nil => simp at hA
    | cons x A =>
      have hA2 : A.length = k := by simpa using hA
      show x :: (A ++ B).set k v = x :: (A ++ B.set 0 v)
      rw [ih A B v hA2]

/-- Reading the slot right after a prefix of length k reads the head of the
suffix. -/
theorem getD_append_len {α : Type} (k : Nat) :
    ∀ (A B : List α) (d : α), A.length = k →
      (A ++ B).getD k d = B.getD 0 d := by
  induction k with
  | zero =>
    intro A B d hA
    have hnil : A = [] := List.eq_nil_of_length_eq_zero hA
    subst hnil
    rfl
  | succ k ih =>
    intro A B d hA
    cases A with
    | nil => simp at hA
    | cons x A =>
      have hA2 : A.length = k := by simpa using hA
      show (A ++ B).getD k d = B.getD 0 d
      exact ih A B d hA2

/-- Dropping k elements of a list longer than k yields the k-th element
followed by the remaining drop. -/
theorem drop_eq_getD_cons {α : Type} (d : α) :
    ∀ (l : List α) (k : Nat), k < l.length →
      l.drop k = l.getD k d :: l.drop (k + 1)
  | [], k, h => absurd h (by simp)
  | x :: l, 0, _ => rfl
  | x :: l, k + 1, h => drop_eq_getD_cons d l k (Nat.lt_of_succ_lt_succ h)

/-- Taking k+1 elements of a list longer than k appends the k-th element to the
take of k. -/
theorem take_succ_getD {α : Type} (d : α) :
    ∀ (l : List α) (k : Nat), k < l.length →
      l.take (k + 1) = l.take k ++ [l.getD k d]
  | [], k, h => absurd h (by simp)
  | x :: l, 0, _ => rfl
  | x :: l, k + 1, h => by
    have ih := take_succ_getD d l k (Nat.lt_of_succ_lt_succ h)
    show x :: l.take (k + 1) = x :: (l.take k ++ [l.getD k d])
    rw [ih]

/-- The sentinel loop of stop run over the first k queues appends exactly one
sentinel to each of them and leaves the rest untouched. -/
theorem enqueueLoop_eq (qs : List (List QTask)) :
    ∀ k, k ≤ qs.length →
      enqueueLoop qs k =
        (qs.take k).map (fun q => q ++ [QTask.sentinel]) ++ qs.drop k := by
  intro k
  induction k with
  | zero => intro _; simp [enqueueLoop]
  | succ k ih =>
    intro h
    have hk : k < qs.length := h
    show addSentinel (enqueueLoop qs k) k = _
    rw [ih (Nat.le_of_lt hk), addSentinel]
    have hlen : ((qs.take k).map (fun q => q ++ [QTask.sentinel])).length = k := by
      simp [List.length_take, Nat.min_eq_left (Nat.le_of_lt hk)]
    rw [drop_eq_getD_cons ([] : List QTask) qs k hk]
    rw [getD_append_len k _ _ _ hlen, set_append_len k _ _ _ hlen]
    rw [take_succ_getD ([] : List QTask) qs k hk, List.map_append]
    simp

/-- C7: stop clears the running flag, appends exactly one empty sentinel task
to each of the N queues, reports for every thread the fate the block argument
dictates - each joinable worker is joined when block is true and detached
otherwise - and clears the thread list; in particular when every recorded
worker is joinable, every one of them is joined (block) or detached (not
block). -/
theorem stop_flag_sentinels_fates (block_ : Bool) (st : SchedulerState) :
    (stopScheduler block_ st).1.continueFlag = false ∧
    (stopScheduler block_ st).1.queues =
      st.queues.map (fun q => q ++ [QTask.sentinel]) ∧
    (stopScheduler block_ st).1.threads = [] ∧
    (stopScheduler block_ st).2 =
      st.threads.map (fun th =>
        if th.joinable then
          (if block_ then ThreadFate.joined else ThreadFate.detached)
        else ThreadFate.skipped) ∧
    (st.threads.all (fun th => th.joinable) = true →
      (stopScheduler block_ st).2 =
        st.threads.map
          (fun _ => if block_ then ThreadFate.joined else ThreadFate.detached)) := by
  refine ⟨rfl, ?_, rfl, rfl, ?_⟩
  · show enqueueLoop st.queues st.queues.length = _
    rw [enqueueLoop_eq st.queues st.queues.length (Nat.le_refl _)]
    simp
  · intro hall
    show st.threads.map _ = st.threads.map _
    apply List.map_congr_left
    intro th hth
    have hj : th.joinable = true := by
      have := List.all_eq_true.mp hall th hth
      simpa using this
    simp [hj]

/-- Witness for C7 at a concrete scheduler with one queue and one joinable
worker, stopped with block = true: the worker is joined. -/
theorem stop_flag_sentinels_fates_witness :
    (stopScheduler true
        (SchedulerState.mk true [[QTask.user 5]] [WorkerThread.mk true])).2 =
      [ThreadFate.joined] := by
  have h := (stop_flag_sentinels_fates true
    (SchedulerState.mk true [[QTask.user 5]] [WorkerThread.mk true])).2.2.2.2
    (by decide)
  simpa using h

/-- C8: the pipeline of the stages a(x)=2x, b(x)=3x, c(x)=4x invoked with 3
yields 72, the composition c(b(a(3))). -/
theorem pipeline_abc_at_3 :
    pipelineRun [a, b, c] 3 = 72 ∧ pipelineRun [a, b, c] 3 = c (b (a 3)) := by
  constructor <;> decide

/-- C9: the closure add_task wraps every submitted task in holds only a weak
handle to the scheduler's shared state; when that handle no longer locks - the
scheduler was destroyed before the task ran - the user callable is never
invoked (the world is unchanged) and the drain-after-run loop is skipped; when
it locks, the callable runs and then the drain loop, which stops at once when
the continue flag has dropped. -/
theorem add_task_weak_handle (World : Type) (user : World → World) (w : World)
    (iters : List (Bool × Bool)) :
    addTaskClosure false user w iters = (w, 0) ∧
    addTaskClosure true user w iters = (user w, drainAfterRun iters) ∧
    (∀ (r : Bool) (rest : List (Bool × Bool)),
        drainAfterRun ((false, r) :: rest) = 0) := by
  refine ⟨rfl, rfl, ?_⟩
  intro r rest
  simp [drainAfterRun]

/-- C10: get_task_scheduler always returns a started scheduler: on first access
the singleton is constructed and started; on every later access, a singleton
found not started is started again before being returned; the static afterwards
holds exactly the returned scheduler. -/
theorem get_task_scheduler_started (hw : Nat) (global : Option SchedulerState) :
    startedScheduler (getTaskScheduler hw global).1 = true ∧
    (getTaskScheduler hw global).2 = some (getTaskScheduler hw global).1 ∧
    (getTaskScheduler hw none).1 = startScheduler (newScheduler hw) ∧
    (∀ s : SchedulerState, startedScheduler s = false →
        (getTaskScheduler hw (some s)).1 = startScheduler s) := by
  refine ⟨?_, rfl, rfl, ?_⟩
  · cases global with
    | none => rfl
    | some s =>
      cases hs : s.continueFlag <;>
        simp [getTaskScheduler, startedScheduler, startScheduler, hs]
  · intro s hs
    simp [getTaskScheduler, hs]

/-- Witness for C10 at a concrete stopped singleton with two queues: the
accessor starts it before returning it. -/
theorem get_task_scheduler_started_witness :
    (getTaskScheduler 2 (some (newScheduler 2))).1 =
      startScheduler (newScheduler 2) :=
  (get_task_scheduler_started 2 (some (newScheduler 2))).2.2.2 (newScheduler 2)
    (by decide)
